import Mathlib

/-!
Verification development for the Lead-filtration repository
(`backend/linkedin_utils.py` and `backend/main.py`).

The Python code is shallowly embedded: every side effect of the scraper
(Selenium driver creation, page navigation, DOM queries, the Ollama HTTP
request) is mediated by an explicit environment `Env` describing how the
external world answers each interaction, and every Python exception path is
represented by an explicit `Except` value.  Pure Python functions become
Lean functions over these environments.
-/

namespace LeadFiltration

/-- Model of a Python scalar value as it appears in a pandas cell or as a
function argument: either a `str`, the float `NaN` (produced by pandas for
missing cells), or any other non-string value (numbers, `None`, ...). -/
inductive PyVal
  | str (s : String)
  | nan
  | other
deriving DecidableEq, Repr

/-- Whitespace test used to model Python `str.strip()` (Python strips
Unicode whitespace; the claims only involve ASCII text). -/
def isWs (c : Char) : Bool := c.isWhitespace

/-- Model of Python `str.strip()` on the character list: drop whitespace
from the front, then from the back. -/
def pyStripL (l : List Char) : List Char :=
  ((l.dropWhile isWs).reverse.dropWhile isWs).reverse

/-- Model of Python `str.strip()`. -/
def pyStrip (s : String) : String := String.mk (pyStripL s.data)

/-- Model of Python `str.lower()` on the character list (ASCII case fold,
as `Char.toLower`). -/
def pyLowerL (l : List Char) : List Char := l.map Char.toLower

/-- The characters of the literal "yes" tested for by the classifier. -/
def yesL : List Char := ['y', 'e', 's']

/-- Model of the Python substring test `"yes" in reply`. -/
def yesIn (l : List Char) : Bool := decide (yesL <:+: l)

/-- Model of the Python substring test `needle in s` for strings. -/
def containsSub (needle s : String) : Bool := decide (needle.data <:+: s.data)

/-- Model of Python `href.split("?")[0]`: the part of the string before the
first question mark (the whole string if none). -/
def stripQuery (s : String) : String :=
  String.mk (s.data.takeWhile (fun c => c ≠ '?'))

/-- Model of Python `s.rstrip("/")`: drop every trailing slash. -/
def pyRstripSlash (s : String) : String :=
  String.mk ((s.data.reverse.dropWhile (fun c => c = '/')).reverse)

/-- Model of Python `s.startswith(pre)`. -/
def pyStartsWith (s pre : String) : Bool := decide (pre.data <+: s.data)

/-- A company accepted by the relevance filter
(`linkedin_utils.get_company_info` return dict). -/
structure CompanyMatch where
  company_url : String
  about : String
deriving DecidableEq, Repr

/-- The dict returned by `linkedin_utils.validate_linkedin_profile` on
acceptance. -/
structure ProfileResult where
  has_photo : Bool
  job_title : String
  connections : String
  companies : List CompanyMatch
deriving DecidableEq, Repr

/-- Outcome of a single Selenium `find_element` call: an element with its
text, a `NoSuchElementException`, or any other exception. -/
inductive ElemRes
  | found (text : String)
  | noSuchElement
  | otherError
deriving DecidableEq, Repr

/-- Behaviour of one anchor found by the company-link harvester:
`get_attribute("href")` either returns a value (`None` or a string) or
raises (for example a stale-element error). -/
inductive AnchorBeh
  | href (h : Option String)
  | raises
deriving DecidableEq, Repr

/-- Outcome of the Ollama HTTP request in `is_similar_with_ollama`: either
the request and JSON decoding succeed, with the `"response"` field present
or absent, or anything in the request raises. -/
inductive OllamaRes
  | ok (respField : Option String)
  | fail
deriving DecidableEq, Repr

/-- Observable interactions with the browser session that the claims talk
about: creating/logging in the driver, and `driver.get(url)` calls made
while opening a page. -/
inductive TraceEv
  | driverInit
  | navGet (u : PyVal)
deriving DecidableEq, Repr

/-- Environment describing how the external world (Selenium session,
LinkedIn pages, Ollama backend) answers each interaction of one call into
`linkedin_utils`.  Function-valued fields are keyed exactly the way the
source queries them: `cssProfile` by the CSS selector used on the profile
page, `navFails` by the argument passed to `driver.get`, `aboutDesc` and
`ollama` by the company about-page URL and the full prompt text. -/
structure Env where
  /-- The module-level `driver` global is already initialized. -/
  driverCached : Bool
  /-- When the driver is not cached: driver creation plus login succeed. -/
  driverInitOk : Bool
  /-- Whether `driver.get u` raises, keyed by its argument. -/
  navFails : PyVal → Bool
  /-- Result of `find_element(By.CSS_SELECTOR, sel)` on the profile page. -/
  cssProfile : String → ElemRes
  /-- Result of the XPATH `find_element` containing the text lookup used
  for the connection count. -/
  connectionsRes : ElemRes
  /-- Whether `execute_script` (the page scroll) raises. -/
  scrollFails : Bool
  /-- Whether `find_elements` for the experience anchors raises. -/
  anchorsFail : Bool
  /-- The anchors returned by `find_elements`, in DOM order. -/
  anchors : List AnchorBeh
  /-- Result of the bounded wait for the about-page description,
  keyed by the about-page URL: `some text` when the element appears,
  `none` on timeout or absence. -/
  aboutDesc : String → Option String
  /-- Behaviour of the Ollama endpoint, keyed by the prompt text. -/
  ollama : String → OllamaRes

/-- The fixed keyword list `TARGET_KEYWORDS` of `linkedin_utils.py`. -/
def TARGET_KEYWORDS : List String :=
  ["sports", "boxing", "football", "cricket", "tennis", "basketball",
   "hockey", "athletics", "sports goods", "netting", "fishing", "snowboard",
   "sandboard", "sail boats", "golf", "manufacturing", "bicycle",
   "surfboard"]

/-- The prompt built by `is_similar_with_ollama` (an f-string joining the
keywords with a comma and quoting the description). -/
def buildPrompt (description : String) (keywords : List String) : String :=
  "\nYou are an intelligent assistant. Check if this company description is related to any of the following keywords:\nKeywords: "
    ++ String.intercalate ", " keywords
    ++ "\nDescription: \"" ++ description
    ++ "\"\n\nReply only with \"YES\" if related or \"NO\" if not.\n"

/-- Embedding of `linkedin_utils.is_similar_with_ollama`: build the prompt,
post it to the backend, take `.json().get("response", "")`, strip, lower,
and test for the substring "yes"; any exception in the request or decoding
is caught and yields `False`. -/
def is_similar_with_ollama (env : Env) (description : String)
    (keywords : List String) : Bool :=
  match env.ollama (buildPrompt description keywords) with
  | OllamaRes.fail => false
  | OllamaRes.ok respField =>
      yesIn (pyLowerL (pyStripL (respField.getD "").data))

/-- Embedding of `linkedin_utils.get_driver`: return the cached driver if
present; otherwise create it and log in (navigating to the login page), and
on any failure log and re-raise.  The trace records the attempted driver
initialization. -/
def get_driver (env : Env) : Except Unit Unit × List TraceEv :=
  if env.driverCached then (Except.ok (), [])
  else if env.driverInitOk then (Except.ok (), [TraceEv.driverInit])
  else (Except.error (), [TraceEv.driverInit])

/-- Embedding of `linkedin_utils.get_company_info`: visit the company
about page (`company_url.rstrip("/") + "/about"`), wait for the
description element (absence or timeout gives `None`), strip its text and
keep the company only when `is_similar_with_ollama` accepts it.  Every
exception (including a navigation failure) is caught and gives `None`. -/
def get_company_info (env : Env) (company_url : String) :
    Option CompanyMatch × List TraceEv :=
  let about_url := pyRstripSlash company_url ++ "/about"
  let tr := [TraceEv.navGet (PyVal.str about_url)]
  if env.navFails (PyVal.str about_url) then (none, tr)
  else
    match env.aboutDesc about_url with
    | none => (none, tr)
    | some txt =>
        let about_text := pyStrip txt
        if is_similar_with_ollama env about_text TARGET_KEYWORDS then
          (some { company_url := company_url, about := about_text }, tr)
        else (none, tr)

/-- Python-set insertion modelled with insertion order: add the element at
the end unless already present. -/
def setAdd (l : List String) (u : String) : List String :=
  if u ∈ l then l else l ++ [u]

/-- The anchor loop of `extract_company_links`: for each anchor take its
`href`; when it is a string containing "/company/", add the part before
any query string to the set.  When `get_attribute` raises, the enclosing
`except` is entered, so the links collected so far are what remains. -/
def collectLinks : List AnchorBeh → List String → List String
  | [], acc => acc
  | AnchorBeh.raises :: _, acc => acc
  | AnchorBeh.href none :: rest, acc => collectLinks rest acc
  | AnchorBeh.href (some h) :: rest, acc =>
      if containsSub "/company/" h then collectLinks rest (setAdd acc (stripQuery h))
      else collectLinks rest acc

/-- Embedding of `linkedin_utils.extract_company_links`: scroll the page,
query the experience anchors and collect their normalized company URLs
into a set; any exception is caught (logged) and the links collected so
far are returned as a list.  Python-set iteration order is modelled as
insertion order (the spec itself leaves this order unspecified). -/
def extract_company_links (env : Env) : List String :=
  if env.scrollFails then []
  else if env.anchorsFail then []
  else collectLinks env.anchors []

/-- The photo selector fallback list of `validate_linkedin_profile`. -/
def photoSelectors : List String :=
  ["img.profile-photo", "img.pv-top-card-profile-picture__image",
   ".pv-top-card__photo"]

/-- The job-title selector fallback list of `validate_linkedin_profile`. -/
def titleSelectors : List String :=
  [".text-body-medium.break-words", ".pv-text-details__left-panel",
   ".pv-top-card--list"]

/-- The photo loop: first selector that finds an element sets
`has_photo = True`; `NoSuchElementException` moves to the next selector;
any other exception escapes to the top-level handler. -/
def photoLoop (env : Env) : List String → Except Unit Bool
  | [] => Except.ok false
  | sel :: rest =>
      match env.cssProfile sel with
      | ElemRes.found _ => Except.ok true
      | ElemRes.noSuchElement => photoLoop env rest
      | ElemRes.otherError => Except.error ()

/-- The job-title loop: each found element's stripped text is assigned to
`job_title` and the loop stops at the first non-empty one;
`NoSuchElementException` keeps the previous value and moves on; any other
exception escapes. -/
def titleLoop (env : Env) : List String → String → Except Unit String
  | [], cur => Except.ok cur
  | sel :: rest, cur =>
      match env.cssProfile sel with
      | ElemRes.found t =>
          let jt := pyStrip t
          if jt = "" then titleLoop env rest jt else Except.ok jt
      | ElemRes.noSuchElement => titleLoop env rest cur
      | ElemRes.otherError => Except.error ()

/-- The connections lookup: stripped text of the matching node, and the
empty string when the element is absent or anything raises (the source
catches every exception here). -/
def connectionsOf (env : Env) : String :=
  match env.connectionsRes with
  | ElemRes.found t => pyStrip t
  | _ => ""

/-- The company-inspection loop of `validate_linkedin_profile`: call
`get_company_info` on each harvested URL and accumulate the non-`None`
results in order. -/
def inspectCompanies (env : Env) :
    List String → List CompanyMatch × List TraceEv
  | [] => ([], [])
  | u :: rest =>
      let (info, tr) := get_company_info env u
      let (restM, trR) := inspectCompanies env rest
      match info with
      | some m => (m :: restM, tr ++ trR)
      | none => (restM, tr ++ trR)

/-- The body of the `try` block of `validate_linkedin_profile`: get the
driver, open the profile URL, extract the photo/title/connections fields,
harvest the company links, inspect each company, and return `None` when no
company matched, the assembled dict otherwise.  `Except.error` stands for
an exception escaping the block. -/
def validateCore (env : Env) (profile_url : PyVal) :
    Except Unit (Option ProfileResult) × List TraceEv :=
  let (d, tr1) := get_driver env
  match d with
  | Except.error e => (Except.error e, tr1)
  | Except.ok _ =>
      let tr2 := tr1 ++ [TraceEv.navGet profile_url]
      if env.navFails profile_url then (Except.error (), tr2)
      else
        match photoLoop env photoSelectors with
        | Except.error e => (Except.error e, tr2)
        | Except.ok has_photo =>
            match titleLoop env titleSelectors "" with
            | Except.error e => (Except.error e, tr2)
            | Except.ok job_title =>
                let connections := connectionsOf env
                let company_urls := extract_company_links env
                let (matching, tr3) := inspectCompanies env company_urls
                if matching.isEmpty then (Except.ok none, tr2 ++ tr3)
                else
                  (Except.ok (some
                    { has_photo := has_photo, job_title := job_title,
                      connections := connections, companies := matching }),
                   tr2 ++ tr3)

/-- Embedding of `linkedin_utils.validate_linkedin_profile`: an argument
equal to the empty string returns `None` at once (before any driver or
page interaction); otherwise the pipeline runs and any exception escaping
it is caught, logged and converted to `None`.  The second component is the
trace of driver interactions performed. -/
def validate_linkedin_profile (env : Env) (profile_url : PyVal) :
    Option ProfileResult × List TraceEv :=
  if profile_url = PyVal.str "" then (none, [])
  else
    match validateCore env profile_url with
    | (Except.error _, tr) => (none, tr)
    | (Except.ok r, tr) => (r, tr)

/-- A pandas row (one record of the uploaded CSV), modelled as an ordered
association list from column name to cell value, mirroring `row.to_dict()`
with insertion-ordered keys. -/
abbrev Row := List (String × PyVal)

/-- Cell access `row[col]` (also used for `col in row`): the value stored
at the first occurrence of the key, if any. -/
def lookupVal : Row → String → Option PyVal
  | [], _ => none
  | p :: rest, k => if p.1 = k then some p.2 else lookupVal rest k

/-- Python dict assignment `d[k] = v`: replace the first binding of `k`,
or append a new binding at the end. -/
def setVal : Row → String → PyVal → Row
  | [], k, v => [(k, v)]
  | p :: rest, k, v => if p.1 = k then (k, v) :: rest else p :: setVal rest k v

/-- Cell-level effect of `sanitize_dataframe`: `fillna('')` replaces `NaN`
by the empty string and leaves every other value unchanged.  (The extra
`inf` replacement of the source only touches float-typed columns, which
never hold the string fields the claims are about.) -/
def sanitizeVal : PyVal → PyVal
  | PyVal.nan => PyVal.str ""
  | v => v

/-- Embedding of `main.sanitize_dataframe`, row by row. -/
def sanitizeRow (r : Row) : Row := r.map (fun p => (p.1, sanitizeVal p.2))

/-- The per-URL profile validation capability used by the batch processor:
`validate_linkedin_profile` may return a result dict, return `None`, or
raise (the `Except.error` case). -/
abbrev Validator := String → Except Unit (Option ProfileResult)

/-- The URL-locating loop of `process_profiles`: the single candidate
column is `"linkedinUrl"`; its value qualifies when it is a string that
starts with `"http"`. -/
def findUrl (r : Row) : Option String :=
  match lookupVal r "linkedinUrl" with
  | some (PyVal.str s) => if pyStartsWith s "http" then some s else none
  | _ => none

/-- The `lead_status` expression of `process_profiles`: `"valid"` exactly
when `result["has_photo"]` is truthy and `result["job_title"]` is a
non-empty string. -/
def leadStatus (res : ProfileResult) : String :=
  if res.has_photo && !(res.job_title == "") then "valid" else "invalid"

/-- The output-row construction of `process_profiles`: start from
`row.to_dict()` and assign the six derived fields in source order, taking
the company data from the given (first) company match. -/
def buildOutputRow (r : Row) (res : ProfileResult) (c : CompanyMatch) : Row :=
  setVal (setVal (setVal (setVal (setVal (setVal r
    "lead_status" (PyVal.str (leadStatus res)))
    "profile_job_title" (PyVal.str res.job_title))
    "profile_connections" (PyVal.str res.connections))
    "company_url" (PyVal.str c.company_url))
    "company_about" (PyVal.str c.about))
    "product_category" (PyVal.str "")

/-- Processing of one input row inside the loop of `process_profiles`:
skip the row (`none`) when no valid URL is found, when the validator
raises, returns `None`, or returns a result with an empty (or missing)
company list; otherwise build the output row from the first company. -/
def processRow (validator : Validator) (r : Row) : Option Row :=
  match findUrl r with
  | none => none
  | some url =>
      match validator url with
      | Except.error _ => none
      | Except.ok none => none
      | Except.ok (some res) =>
          match res.companies with
          | [] => none
          | c :: _ => some (buildOutputRow r res c)

/-- Sort key of the final `sort_values(by=["profile_job_title"])`: the
string stored in the `profile_job_title` column (every produced row stores
a string there). -/
def titleKey (r : Row) : String :=
  match lookupVal r "profile_job_title" with
  | some (PyVal.str s) => s
  | _ => ""

/-- Embedding of `main.process_profiles`.  The final
`result_df.sort_values(by=["profile_job_title"])` call is pandas code, an
external collaborator of the core; it is passed in as the `sortFn`
capability (the concrete default, numpy's quicksort argsort on the title
column, is modelled separately below).  When no valid rows were produced
the result file keeps only the input headers, i.e. has zero data rows;
otherwise the produced rows are sorted and sanitized and written.  Every
exception path of the loop body is a `none` of `processRow`, so the
function is total: nothing escapes to the caller. -/
def process_profiles (validator : Validator) (sortFn : List Row → List Row)
    (df : List Row) : List Row :=
  let valid_rows := df.filterMap (processRow validator)
  if valid_rows.isEmpty then []
  else (sortFn valid_rows).map sanitizeRow

/-- A parsed CSV file as `pd.read_csv` presents it to `check_csv_issues`:
column names in order, and the records. -/
structure Table where
  cols : List String
  rows : List Row
deriving DecidableEq, Repr

/-- Outcome of `pd.read_csv` inside `check_csv_issues`: success, an
`EmptyDataError`, a `ParserError`, or any other exception. -/
inductive CsvParse
  | table (t : Table)
  | emptyData
  | parserError
  | readError
deriving DecidableEq, Repr

/-- The distinct rejection messages of `check_csv_issues`.  The
`missingLinkedinCol` message is the one whose text offers the alternative
column names (LinkedIn URL, linkedin_url, Profile URL, LinkedIn, linkedin)
even though only `linkedinUrl` is ever checked. -/
inductive CsvIssue
  | emptyFile
  | missingLinkedinCol
  | noValidUrls
  | parseFailed
  | otherFailure
deriving DecidableEq, Repr

/-- The per-cell URL validity test of `check_csv_issues`:
`isinstance(x, str) and x.startswith('http')`. -/
def isValidUrlVal : PyVal → Bool
  | PyVal.str s => pyStartsWith s "http"
  | _ => false

/-- Column extraction `df[col]`: the cell of each record, `NaN` when
absent. -/
def colValues (t : Table) (c : String) : List PyVal :=
  t.rows.map (fun r => (lookupVal r c).getD PyVal.nan)

/-- Embedding of `main.check_csv_issues`: read the CSV (exceptions become
the corresponding messages), reject an empty frame, reject when the
`linkedinUrl` column is absent, reject when no cell of that column is a
string starting with `"http"`; `none` means the file is accepted. -/
def check_csv_issues : CsvParse → Option CsvIssue
  | CsvParse.emptyData => some CsvIssue.emptyFile
  | CsvParse.parserError => some CsvIssue.parseFailed
  | CsvParse.readError => some CsvIssue.otherFailure
  | CsvParse.table t =>
      if t.rows.isEmpty || t.cols.isEmpty then some CsvIssue.emptyFile
      else if "linkedinUrl" ∈ t.cols then
        if (colValues t "linkedinUrl").countP isValidUrlVal = 0 then
          some CsvIssue.noValidUrls
        else none
      else some CsvIssue.missingLinkedinCol

/-!
Model of the concrete sort used by `process_profiles`.

`result_df.sort_values(by=["profile_job_title"])` runs with pandas'
default `kind="quicksort"`.  For a single object-dtype column pandas
(`nargsort`) delegates to `ndarray.argsort(kind="quicksort")`, and for
dtypes sorted through their compare function numpy dispatches to the
generic `npy_aquicksort` of `numpy/core/src/npysort/quicksort.c.src`: an
introsort (median-of-3 quicksort, segments of at most
`SMALL_QUICKSORT = 15` elements finished by insertion sort, heapsort
fallback past a depth limit of `2*floor(log2 n)`).  The definitions below
transcribe that routine index for index (its explicit stack becomes a
list, loops become fuel-bounded recursion with fuel generous enough never
to run out for the list sizes used here; the routine's fixed 100-entry
stack bound is never reached for such sizes).  String comparison models
the `<` of Python `str` (code-point lexicographic), which is what
`OBJECT_compare` uses.
-/

/-- Lexicographic code-point comparison of character lists, as Python
compares `str` values. -/
def strLtL : List Char → List Char → Bool
  | [], [] => false
  | [], _ :: _ => true
  | _ :: _, [] => false
  | a :: as, b :: bs =>
      if a.toNat < b.toNat then true
      else if b.toNat < a.toNat then false
      else strLtL as bs

/-- Boolean code-point comparison of the keys, `cmp(a, b) < 0`. -/
def strLt (a b : String) : Bool := strLtL a.data b.data

/-- The non-strict comparison `a <= b` of the total order, used to state
ascending sortedness. -/
def strLe (a b : String) : Bool := !(strLt b a)

/-- Key of the element whose index is stored at position `i` of the index
array `t`. -/
def aqsKey (keys : Array String) (t : Array Nat) (i : Nat) : String :=
  keys.getD (t.getD i 0) ""

/-- Swap the entries at positions `i` and `j` of the index array
(`INTP_SWAP`). -/
def aqsSwap (t : Array Nat) (i j : Nat) : Array Nat :=
  let vi := t.getD i 0
  let vj := t.getD j 0
  (t.setD i vj).setD j vi

/-- The scan `do ++pi; while (cmp(v[*pi], vp) < 0)`. -/
def aqsScanUp (keys : Array String) (t : Array Nat) (pivot : String) :
    Nat → Nat → Nat
  | 0, i => i
  | fuel + 1, i =>
      let i' := i + 1
      if strLt (aqsKey keys t i') pivot then aqsScanUp keys t pivot fuel i'
      else i'

/-- The scan `do --pj; while (cmp(vp, v[*pj]) < 0)`. -/
def aqsScanDown (keys : Array String) (t : Array Nat) (pivot : String) :
    Nat → Nat → Nat
  | 0, j => j
  | fuel + 1, j =>
      let j' := j - 1
      if strLt pivot (aqsKey keys t j') then aqsScanDown keys t pivot fuel j'
      else j'

/-- The inner partition exchange loop: scan up, scan down, stop when the
pointers cross, otherwise swap and continue.  Returns the final array and
the crossing position `pi`. -/
def aqsPartLoop (keys : Array String) (pivot : String) (n : Nat) :
    Nat → Array Nat → Nat → Nat → Array Nat × Nat
  | 0, t, i, _ => (t, i)
  | fuel + 1, t, i, j =>
      let i' := aqsScanUp keys t pivot (n + 2) i
      let j' := aqsScanDown keys t pivot (n + 2) j
      if i' ≥ j' then (t, i')
      else aqsPartLoop keys pivot n fuel (aqsSwap t i' j') i' j'

/-- The shifting loop of the final insertion sort: move larger elements of
`[pl, pj)` one slot up while the inserted key is smaller. -/
def aqsInsShift (keys : Array String) (vi : Nat) (pl : Nat) :
    Nat → Array Nat → Nat → Array Nat × Nat
  | 0, t, pj => (t, pj)
  | fuel + 1, t, pj =>
      if pl < pj && strLt (keys.getD vi "") (aqsKey keys t (pj - 1)) then
        aqsInsShift keys vi pl fuel (t.setD pj (t.getD (pj - 1) 0)) (pj - 1)
      else (t, pj)

/-- The insertion sort run on a small segment `[pl, pr]`. -/
def aqsInsSort (keys : Array String) (pl pr : Nat) :
    Nat → Array Nat → Nat → Array Nat
  | 0, t, _ => t
  | fuel + 1, t, pi =>
      if pi > pr then t
      else
        let vi := t.getD pi 0
        let (t', pj) := aqsInsShift keys vi pl (pi + 1) t pi
        aqsInsSort keys pl pr fuel (t'.setD pj vi) (pi + 1)

/-- The sift loop shared by both phases of `npy_aheapsort` (the heapsort
fallback), on the 1-based segment view `a[k] = t[pl + k - 1]`. -/
def aqsHeapSift (keys : Array String) (pl : Nat) (tmp : Nat) (nseg : Nat) :
    Nat → Array Nat → Nat → Nat → Array Nat × Nat
  | 0, t, i, _ => (t, i)
  | fuel + 1, t, i, j =>
      if j ≤ nseg then
        let j1 :=
          if j < nseg &&
              strLt (aqsKey keys t (pl + j - 1)) (aqsKey keys t (pl + j)) then
            j + 1
          else j
        if strLt (keys.getD tmp "") (aqsKey keys t (pl + j1 - 1)) then
          aqsHeapSift keys pl tmp nseg fuel
            (t.setD (pl + i - 1) (t.getD (pl + j1 - 1) 0)) j1 (j1 + j1)
        else (t, i)
      else (t, i)

/-- The heap-construction phase of `npy_aheapsort`. -/
def aqsHeapBuild (keys : Array String) (pl : Nat) (nseg : Nat) :
    Nat → Array Nat → Nat → Array Nat
  | 0, t, _ => t
  | fuel + 1, t, l =>
      if l = 0 then t
      else
        let tmp := t.getD (pl + l - 1) 0
        let (t', i) := aqsHeapSift keys pl tmp nseg (nseg + 2) t l (l + l)
        aqsHeapBuild keys pl nseg fuel (t'.setD (pl + i - 1) tmp) (l - 1)

/-- The extraction phase of `npy_aheapsort`. -/
def aqsHeapExtract (keys : Array String) (pl : Nat) :
    Nat → Array Nat → Nat → Array Nat
  | 0, t, _ => t
  | fuel + 1, t, nseg =>
      if nseg ≤ 1 then t
      else
        let tmp := t.getD (pl + nseg - 1) 0
        let t1 := t.setD (pl + nseg - 1) (t.getD pl 0)
        let nseg' := nseg - 1
        let (t2, i) := aqsHeapSift keys pl tmp nseg' (nseg' + 2) t1 1 2
        aqsHeapExtract keys pl fuel (t2.setD (pl + i - 1) tmp) nseg'

/-- `npy_aheapsort` on the segment of `nseg` entries starting at `pl`. -/
def aqsHeapsort (keys : Array String) (pl nseg : Nat) (t : Array Nat) :
    Array Nat :=
  aqsHeapExtract keys pl (nseg + 2) (aqsHeapBuild keys pl nseg (nseg + 2) t (nseg / 2)) nseg

/-- The driver loop of `npy_aquicksort`: partition segments larger than
`SMALL_QUICKSORT = 15` (pushing the larger half), insertion-sort the small
ones, heapsort past the depth limit, and pop the explicit stack. -/
def aqsOuter (keys : Array String) (n : Nat) :
    Nat → Array Nat → List (Nat × Nat) → Int → Nat → Nat → Array Nat
  | 0, t, _, _, _, _ => t
  | fuel + 1, t, stack, depth, pl, pr =>
      if pr - pl > 15 then
        if depth < 0 then
          let t' := aqsHeapsort keys pl (pr - pl + 1) t
          match stack with
          | [] => t'
          | (l, r) :: rest => aqsOuter keys n fuel t' rest (depth - 1) l r
        else
          let depth' := depth - 1
          let pm := pl + ((pr - pl) >>> 1)
          let t1 := if strLt (aqsKey keys t pm) (aqsKey keys t pl) then aqsSwap t pm pl else t
          let t2 := if strLt (aqsKey keys t1 pr) (aqsKey keys t1 pm) then aqsSwap t1 pr pm else t1
          let t3 := if strLt (aqsKey keys t2 pm) (aqsKey keys t2 pl) then aqsSwap t2 pm pl else t2
          let pivot := aqsKey keys t3 pm
          let t4 := aqsSwap t3 pm (pr - 1)
          let (t5, pi) := aqsPartLoop keys pivot n (n + 2) t4 pl (pr - 1)
          let t6 := aqsSwap t5 pi (pr - 1)
          if pi - pl < pr - pi then
            aqsOuter keys n fuel t6 ((pi + 1, pr) :: stack) depth' pl (pi - 1)
          else
            aqsOuter keys n fuel t6 ((pl, pi - 1) :: stack) depth' (pi + 1) pr
      else
        let t' := aqsInsSort keys pl pr (pr + 2 - pl) t (pl + 1)
        match stack with
        | [] => t'
        | (l, r) :: rest => aqsOuter keys n fuel t' rest depth l r

/-- `np.argsort(keys_as_object_array, kind="quicksort")`: start from the
identity index array and run the introsort. -/
def npyAquicksortIdx (keys : List String) : List Nat :=
  let n := keys.length
  if n = 0 then []
  else
    (aqsOuter keys.toArray n ((n + 2) * (n + 2)) (Array.range n) []
      (Int.ofNat (Nat.log2 n) * 2) 0 (n - 1)).toList

/-- The concrete row sort performed by
`result_df.sort_values(by=["profile_job_title"])` with pandas defaults:
take the rows in the order of the numpy quicksort argsort of the title
column (`df.take(indexer)`). -/
def pandas_sort_values_by_title (rows : List Row) : List Row :=
  (npyAquicksortIdx (rows.map titleKey)).map (fun i => rows.getD i [])

/-!
Supporting lemmas.
-/

theorem yesL_not_ws : ∀ c ∈ yesL, isWs c = false := by decide

theorem toLower_ws {c : Char} (h : isWs c = true) : Char.toLower c = c := by
  have h' : ((c = ' ' ∨ c = '\t') ∨ c = '\r') ∨ c = '\n' := by
    simpa [isWs, Char.isWhitespace] using h
  rcases h' with ((h' | h') | h') | h' <;> subst h' <;> decide

theorem pyLowerL_ws {w : List Char} (h : ∀ c ∈ w, isWs c = true) :
    pyLowerL w = w := by
  unfold pyLowerL
  induction w with
  | nil => rfl
  | cons c w ih =>
      have hc := toLower_ws (h c (List.mem_cons_self c w))
      simp [hc, ih fun d hd => h d (List.mem_cons_of_mem c hd)]

theorem strip_decomp (l : List Char) :
    ∃ w1 w2, l = w1 ++ pyStripL l ++ w2 ∧ (∀ c ∈ w1, isWs c = true) ∧
      (∀ c ∈ w2, isWs c = true) := by
  refine ⟨l.takeWhile isWs, ((l.dropWhile isWs).reverse.takeWhile isWs).reverse,
    ?_, fun c hc => List.mem_takeWhile_imp hc,
    fun c hc => List.mem_takeWhile_imp (List.mem_reverse.mp hc)⟩
  have h3 := List.takeWhile_append_dropWhile
    (p := isWs) (l := (l.dropWhile isWs).reverse)
  have h2 : l.dropWhile isWs =
      pyStripL l ++ ((l.dropWhile isWs).reverse.takeWhile isWs).reverse := by
    unfold pyStripL
    conv_lhs => rw [← List.reverse_reverse (l.dropWhile isWs), ← h3]
    rw [List.reverse_append]
  have h1 := (List.takeWhile_append_dropWhile (p := isWs) (l := l)).symm
  rw [List.append_assoc, ← h2]
  exact h1

theorem infix_ws_left {ys w m : List Char} (hys : ys ≠ [])
    (hnws : ∀ c ∈ ys, isWs c = false) (hw : ∀ c ∈ w, isWs c = true) :
    (ys <:+: w ++ m) ↔ (ys <:+: m) := by
  constructor
  · intro h
    induction w with
    | nil => simpa using h
    | cons c w ih =>
        rw [List.cons_append] at h
        rcases List.infix_cons_iff.mp h with hpre | hinf
        · cases ys with
          | nil => exact absurd rfl hys
          | cons y ys' =>
              have hyc : y = c := (List.cons_prefix_cons.mp hpre).1
              have h1 := hnws y (List.mem_cons_self y ys')
              have h2 := hw c (List.mem_cons_self c w)
              rw [hyc, h2] at h1
              exact absurd h1 (by simp)
        · exact ih (fun d hd => hw d (List.mem_cons_of_mem c hd)) hinf
  · rintro ⟨s, t, rfl⟩
    exact ⟨w ++ s, t, by simp [List.append_assoc]⟩

theorem infix_ws_right {ys m w : List Char} (hys : ys ≠ [])
    (hnws : ∀ c ∈ ys, isWs c = false) (hw : ∀ c ∈ w, isWs c = true) :
    (ys <:+: m ++ w) ↔ (ys <:+: m) := by
  have h1 : (ys <:+: m ++ w) ↔ (ys.reverse <:+: w.reverse ++ m.reverse) := by
    rw [← List.reverse_append, List.reverse_infix]
  have h2 : (ys.reverse <:+: w.reverse ++ m.reverse) ↔
      (ys.reverse <:+: m.reverse) :=
    infix_ws_left (by simpa using hys)
      (fun c hc => hnws c (List.mem_reverse.mp hc))
      (fun c hc => hw c (List.mem_reverse.mp hc))
  rw [h1, h2, List.reverse_infix]

theorem pyLowerL_append (a b : List Char) :
    pyLowerL (a ++ b) = pyLowerL a ++ pyLowerL b := by
  simp [pyLowerL]

theorem yesIn_strip_lower (l : List Char) :
    yesIn (pyLowerL (pyStripL l)) = yesIn (pyLowerL l) := by
  obtain ⟨w1, w2, hdec, hw1, hw2⟩ := strip_decomp l
  have hys : yesL ≠ [] := by decide
  unfold yesIn
  rw [decide_eq_decide]
  conv_rhs => rw [hdec]
  rw [show pyLowerL (w1 ++ pyStripL l ++ w2) =
        w1 ++ (pyLowerL (pyStripL l) ++ w2) by
      rw [pyLowerL_append, pyLowerL_append, pyLowerL_ws hw1, pyLowerL_ws hw2,
        List.append_assoc]]
  rw [infix_ws_left hys yesL_not_ws hw1, infix_ws_right hys yesL_not_ws hw2]

theorem lookupVal_setVal_self (r : Row) (k : String) (v : PyVal) :
    lookupVal (setVal r k v) k = some v := by
  induction r with
  | nil => simp [setVal, lookupVal]
  | cons p rest ih =>
      by_cases hp : p.1 = k
      · simp [setVal, hp, lookupVal]
      · simp [setVal, hp, lookupVal, ih]

theorem lookupVal_setVal_ne (r : Row) (k k' : String) (v : PyVal)
    (h : k' ≠ k) : lookupVal (setVal r k v) k' = lookupVal r k' := by
  have h' : k ≠ k' := Ne.symm h
  induction r with
  | nil => simp [setVal, lookupVal, h']
  | cons p rest ih =>
      by_cases hp : p.1 = k
      · simp [setVal, hp, lookupVal, h']
      · simp [setVal, hp, lookupVal, ih]

theorem lookupVal_sanitizeRow (r : Row) (k : String) :
    lookupVal (sanitizeRow r) k = (lookupVal r k).map sanitizeVal := by
  induction r with
  | nil => simp [sanitizeRow, lookupVal]
  | cons p rest ih =>
      by_cases hp : p.1 = k
      · simp [sanitizeRow, lookupVal, hp]
      · simpa [sanitizeRow, lookupVal, hp] using ih

theorem titleKey_sanitizeRow (r : Row) : titleKey (sanitizeRow r) = titleKey r := by
  unfold titleKey
  rw [lookupVal_sanitizeRow]
  cases h : lookupVal r "profile_job_title" with
  | none => rfl
  | some v => cases v <;> rfl

theorem lookupVal_buildOutputRow_ne (r : Row) (res : ProfileResult)
    (c : CompanyMatch) (k : String) (h1 : k ≠ "lead_status")
    (h2 : k ≠ "profile_job_title") (h3 : k ≠ "profile_connections")
    (h4 : k ≠ "company_url") (h5 : k ≠ "company_about")
    (h6 : k ≠ "product_category") :
    lookupVal (buildOutputRow r res c) k = lookupVal r k := by
  unfold buildOutputRow
  rw [lookupVal_setVal_ne _ _ _ _ h6, lookupVal_setVal_ne _ _ _ _ h5,
    lookupVal_setVal_ne _ _ _ _ h4, lookupVal_setVal_ne _ _ _ _ h3,
    lookupVal_setVal_ne _ _ _ _ h2, lookupVal_setVal_ne _ _ _ _ h1]

theorem findUrl_some {r : Row} {u : String} (h : findUrl r = some u) :
    lookupVal r "linkedinUrl" = some (PyVal.str u) := by
  unfold findUrl at h
  cases hl : lookupVal r "linkedinUrl" with
  | none => rw [hl] at h; exact absurd h (by simp)
  | some v =>
      rw [hl] at h
      cases v with
      | str s =>
          by_cases hs : pyStartsWith s "http" = true
          · simp [hs] at h
            rw [h]
          · simp [hs] at h
      | nan => exact absurd h (by simp)
      | other => exact absurd h (by simp)

theorem processRow_some {validator : Validator} {r r' : Row}
    (h : processRow validator r = some r') :
    ∃ url res c cs, findUrl r = some url ∧
      validator url = Except.ok (some res) ∧ res.companies = c :: cs ∧
      r' = buildOutputRow r res c := by
  unfold processRow at h
  cases hu : findUrl r with
  | none => simp [hu] at h
  | some url =>
      simp only [hu] at h
      cases hv : validator url with
      | error e => simp [hv] at h
      | ok o =>
          simp only [hv] at h
          cases o with
          | none => simp at h
          | some res =>
              cases hc : res.companies with
              | nil => simp [hc] at h
              | cons c cs =>
                  simp only [hc, Option.some.injEq] at h
                  exact ⟨url, res, c, cs, rfl, hv, hc, h.symm⟩

/-- Helper: the batch output is always a permutation of the sanitized
produced rows, provided the external sort permutes its input. -/
theorem process_profiles_perm (validator : Validator)
    (sortFn : List Row → List Row) (df : List Row)
    (hperm : (sortFn (df.filterMap (processRow validator))).Perm
      (df.filterMap (processRow validator))) :
    (process_profiles validator sortFn df).Perm
      ((df.filterMap (processRow validator)).map sanitizeRow) := by
  unfold process_profiles
  by_cases he : (df.filterMap (processRow validator)).isEmpty
  · rw [if_pos he]
    rw [List.isEmpty_iff] at he
    rw [he]
    simp
  · rw [if_neg he]
    exact hperm.map sanitizeRow

/-- Claim C2: the relevance classifier returns `true` exactly when the
substring "yes" occurs in the lower-cased response text of the language
model backend (the source's additional `strip()` cannot create or destroy
an occurrence), and every request failure or malformed response yields
`false`; the return type `Bool` with no `Except` reflects that no error
ever propagates to the caller. -/
theorem claim_C2 (env : Env) (description : String) (keywords : List String) :
    is_similar_with_ollama env description keywords =
      match env.ollama (buildPrompt description keywords) with
      | OllamaRes.ok (some resp) => yesIn (pyLowerL resp.data)
      | OllamaRes.ok none => false
      | OllamaRes.fail => false := by
  unfold is_similar_with_ollama
  cases h : env.ollama (buildPrompt description keywords) with
  | fail => rfl
  | ok o =>
      cases o with
      | none => rfl
      | some resp => simpa [Option.getD] using yesIn_strip_lower resp.data

/-- Claim C10: the upload-time CSV check accepts a parse result exactly
when it is a non-empty table holding a column named precisely
`linkedinUrl` with at least one string cell starting with `http`; in
particular no alternatively named column (those offered by the rejection
message) is ever accepted as the URL column. -/
theorem claim_C10 (p : CsvParse) :
    check_csv_issues p = none ↔
      ∃ t, p = CsvParse.table t ∧ "linkedinUrl" ∈ t.cols ∧ t.rows ≠ [] ∧
        ∃ v ∈ colValues t "linkedinUrl", isValidUrlVal v = true := by
  cases p with
  | emptyData => simp [check_csv_issues]
  | parserError => simp [check_csv_issues]
  | readError => simp [check_csv_issues]
  | table t =>
      constructor
      · intro h
        simp only [check_csv_issues] at h
        by_cases h1 : (t.rows.isEmpty || t.cols.isEmpty) = true
        · rw [if_pos h1] at h; exact absurd h (by simp)
        · rw [if_neg h1] at h
          by_cases h2 : "linkedinUrl" ∈ t.cols
          · rw [if_pos h2] at h
            by_cases h3 : (colValues t "linkedinUrl").countP isValidUrlVal = 0
            · rw [if_pos h3] at h; exact absurd h (by simp)
            · refine ⟨t, rfl, h2, ?_, ?_⟩
              · intro hr
                exact h1 (by simp [hr])
              · rw [List.countP_eq_zero] at h3
                push_neg at h3
                exact h3
          · rw [if_neg h2] at h; exact absurd h (by simp)
      · rintro ⟨t', ht, hmem, hrows, v, hv, hval⟩
        injection ht with heq
        subst heq
        have hcols : t.cols ≠ [] := List.ne_nil_of_mem hmem
        have hcount : (colValues t "linkedinUrl").countP isValidUrlVal ≠ 0 := by
          rw [Ne, List.countP_eq_zero]
          push_neg
          exact ⟨v, hv, hval⟩
        simp [check_csv_issues, hrows, hcols, hmem, hcount]

/-- Claim C3: under the contract that the external sort permutes its
input, the batch output never has more rows than the input; it is exactly
(a permutation of) the sanitized rows produced from individual input rows;
and each output row carries a `linkedinUrl` string that the originating
input row already carried. -/
theorem claim_C3 (validator : Validator) (sortFn : List Row → List Row)
    (df : List Row)
    (hperm : (sortFn (df.filterMap (processRow validator))).Perm
      (df.filterMap (processRow validator))) :
    (process_profiles validator sortFn df).length ≤ df.length ∧
    (process_profiles validator sortFn df).Perm
      ((df.filterMap (processRow validator)).map sanitizeRow) ∧
    ∀ r' ∈ process_profiles validator sortFn df,
      ∃ r ∈ df, Option.map sanitizeRow (processRow validator r) = some r' ∧
        ∃ u, lookupVal r' "linkedinUrl" = some (PyVal.str u) ∧
          lookupVal r "linkedinUrl" = some (PyVal.str u) := by
  have hp := process_profiles_perm validator sortFn df hperm
  refine ⟨?_, hp, ?_⟩
  · calc (process_profiles validator sortFn df).length
        = ((df.filterMap (processRow validator)).map sanitizeRow).length :=
          hp.length_eq
      _ = (df.filterMap (processRow validator)).length := by simp
      _ ≤ df.length := List.length_filterMap_le _ _
  · intro r' hr'
    have hmem := hp.mem_iff.mp hr'
    rw [List.mem_map] at hmem
    obtain ⟨v, hv, rfl⟩ := hmem
    rw [List.mem_filterMap] at hv
    obtain ⟨r, hr, hpr⟩ := hv
    obtain ⟨url, res, c, cs, hu, hval, hc, rfl⟩ := processRow_some hpr
    have hlu := findUrl_some hu
    have hbuild : lookupVal (buildOutputRow r res c) "linkedinUrl" =
        lookupVal r "linkedinUrl" :=
      lookupVal_buildOutputRow_ne r res c _ (by decide) (by decide) (by decide)
        (by decide) (by decide) (by decide)
    refine ⟨r, hr, by rw [hpr]; rfl, url, ?_, hlu⟩
    rw [lookupVal_sanitizeRow, hbuild, hlu]
    rfl

/-- Claim C4: the batch processor is total (its embedding returns a plain
row list: every exception path of the loop body is a skipped row), and a
row without a valid URL, or whose validation raises, is skipped while the
surrounding rows are processed exactly as if the row were absent. -/
theorem claim_C4 (validator : Validator) (sortFn : List Row → List Row)
    (df1 df2 : List Row) (r : Row)
    (h : findUrl r = none ∨
      ∃ u, findUrl r = some u ∧ validator u = Except.error ()) :
    process_profiles validator sortFn (df1 ++ r :: df2) =
      process_profiles validator sortFn (df1 ++ df2) := by
  have hnone : processRow validator r = none := by
    rcases h with h | ⟨u, hu, he⟩
    · simp [processRow, h]
    · simp [processRow, hu, he]
  simp [process_profiles, List.filterMap_append, List.filterMap_cons, hnone]

/-- Claim C5 (amended): under the contract that the external sort returns
its input rows in ascending `profile_job_title` order, the written table
is ascending in `profile_job_title` and is a permutation of the produced
rows; stability of the order of equal titles is NOT part of this theorem —
it fails for the concrete pandas default sort, see the counterexample. -/
theorem claim_C5_amended (validator : Validator) (sortFn : List Row → List Row)
    (df : List Row)
    (hperm : (sortFn (df.filterMap (processRow validator))).Perm
      (df.filterMap (processRow validator)))
    (hsorted : List.Pairwise (fun a b => strLe (titleKey a) (titleKey b) = true)
      (sortFn (df.filterMap (processRow validator)))) :
    List.Pairwise (fun a b => strLe (titleKey a) (titleKey b) = true)
      (process_profiles validator sortFn df) ∧
    (process_profiles validator sortFn df).Perm
      ((df.filterMap (processRow validator)).map sanitizeRow) := by
  refine ⟨?_, process_profiles_perm validator sortFn df hperm⟩
  unfold process_profiles
  by_cases he : (df.filterMap (processRow validator)).isEmpty
  · rw [if_pos he]; exact List.Pairwise.nil
  · rw [if_neg he]
    rw [List.pairwise_map]
    exact hsorted.imp fun hab => by
      rwa [titleKey_sanitizeRow, titleKey_sanitizeRow]

/-- Claim C6: an accepted validation result is turned into exactly one
output row built from the FIRST company match (the output is independent
of the remaining matches `cs`), merging the original row with the derived
fields: `lead_status` is `valid` precisely when the photo flag is set and
the job title is non-empty, the company fields come from the first match,
`product_category` is always empty, and every column other than the six
derived ones keeps the value it had in the input row. -/
theorem claim_C6 (validator : Validator) (r : Row) (url : String)
    (res : ProfileResult) (c : CompanyMatch) (cs : List CompanyMatch)
    (hurl : findUrl r = some url) (hv : validator url = Except.ok (some res))
    (hc : res.companies = c :: cs) :
    processRow validator r = some (buildOutputRow r res c) ∧
    (lookupVal (buildOutputRow r res c) "lead_status" =
        some (PyVal.str "valid") ↔
      (res.has_photo = true ∧ res.job_title ≠ "")) ∧
    lookupVal (buildOutputRow r res c) "profile_job_title" =
      some (PyVal.str res.job_title) ∧
    lookupVal (buildOutputRow r res c) "profile_connections" =
      some (PyVal.str res.connections) ∧
    lookupVal (buildOutputRow r res c) "company_url" =
      some (PyVal.str c.company_url) ∧
    lookupVal (buildOutputRow r res c) "company_about" =
      some (PyVal.str c.about) ∧
    lookupVal (buildOutputRow r res c) "product_category" =
      some (PyVal.str "") ∧
    ∀ k, k ≠ "lead_status" → k ≠ "profile_job_title" →
      k ≠ "profile_connections" → k ≠ "company_url" → k ≠ "company_about" →
      k ≠ "product_category" →
      lookupVal (buildOutputRow r res c) k = lookupVal r k := by
  have hlead : lookupVal (buildOutputRow r res c) "lead_status" =
      some (PyVal.str (leadStatus res)) := by
    unfold buildOutputRow
    rw [lookupVal_setVal_ne _ _ _ _ (by decide),
      lookupVal_setVal_ne _ _ _ _ (by decide),
      lookupVal_setVal_ne _ _ _ _ (by decide),
      lookupVal_setVal_ne _ _ _ _ (by decide),
      lookupVal_setVal_ne _ _ _ _ (by decide), lookupVal_setVal_self]
  refine ⟨?_, ?_, ?_, ?_, ?_, ?_, ?_, ?_⟩
  · simp [processRow, hurl, hv, hc]
  · rw [hlead]
    unfold leadStatus
    by_cases hb : (res.has_photo && !(res.job_title == "")) = true
    · rw [if_pos hb]
      simp only [Bool.and_eq_true, Bool.not_eq_true', beq_eq_false_iff_ne] at hb
      simp [hb]
    · rw [if_neg hb]
      constructor
      · intro h'
        simp at h'
      · rintro ⟨h1, h2⟩
        exact absurd (by simp [h1, h2]) hb
  · unfold buildOutputRow
    rw [lookupVal_setVal_ne _ _ _ _ (by decide),
      lookupVal_setVal_ne _ _ _ _ (by decide),
      lookupVal_setVal_ne _ _ _ _ (by decide),
      lookupVal_setVal_ne _ _ _ _ (by decide), lookupVal_setVal_self]
  · unfold buildOutputRow
    rw [lookupVal_setVal_ne _ _ _ _ (by decide),
      lookupVal_setVal_ne _ _ _ _ (by decide),
      lookupVal_setVal_ne _ _ _ _ (by decide), lookupVal_setVal_self]
  · unfold buildOutputRow
    rw [lookupVal_setVal_ne _ _ _ _ (by decide),
      lookupVal_setVal_ne _ _ _ _ (by decide), lookupVal_setVal_self]
  · unfold buildOutputRow
    rw [lookupVal_setVal_ne _ _ _ _ (by decide), lookupVal_setVal_self]
  · unfold buildOutputRow
    rw [lookupVal_setVal_self]
  · intro k h1 h2 h3 h4 h5 h6
    exact lookupVal_buildOutputRow_ne r res c k h1 h2 h3 h4 h5 h6

/-- Claim C1: whenever the validation pipeline reaches the
company-inspection stage (driver available, navigation and the field
extractions did not raise), the validator's verdict is decided solely by
the accumulated company matches: an empty accumulation yields `None`
regardless of the extracted photo/title/connections values, and a
non-empty one yields the full assembled result carrying exactly those
values and matches. -/
theorem claim_C1 (env : Env) (url : PyVal) (hp : Bool) (jt : String)
    (cs : List CompanyMatch) (tr3 : List TraceEv)
    (hurl : url ≠ PyVal.str "")
    (hdrv : (get_driver env).1 = Except.ok ())
    (hnav : env.navFails url = false)
    (hphoto : photoLoop env photoSelectors = Except.ok hp)
    (htitle : titleLoop env titleSelectors "" = Except.ok jt)
    (hins : inspectCompanies env (extract_company_links env) = (cs, tr3)) :
    (cs = [] → (validate_linkedin_profile env url).1 = none) ∧
    (cs ≠ [] → (validate_linkedin_profile env url).1 = some
      { has_photo := hp, job_title := jt, connections := connectionsOf env,
        companies := cs }) := by
  have hva : validate_linkedin_profile env url =
      match validateCore env url with
      | (Except.error _, tr) => (none, tr)
      | (Except.ok r, tr) => (r, tr) := by
    unfold validate_linkedin_profile
    rw [if_neg hurl]
  rcases hgd : get_driver env with ⟨d, tr1⟩
  rw [hgd] at hdrv
  simp only at hdrv
  subst hdrv
  constructor
  · intro hcs
    subst hcs
    rw [hva]
    unfold validateCore
    rw [hgd]
    simp [hnav, hphoto, htitle, hins]
  · intro hcs
    have hne : cs.isEmpty = false := by
      cases cs with
      | nil => exact absurd rfl hcs
      | cons a l => rfl
    rw [hva]
    unfold validateCore
    rw [hgd]
    simp [hnav, hphoto, htitle, hins, hne]

/-- Helper: the three possible outcomes of `get_driver`. -/
theorem get_driver_cases (env : Env) :
    get_driver env = (Except.ok (), []) ∨
    get_driver env = (Except.ok (), [TraceEv.driverInit]) ∨
    get_driver env = (Except.error (), [TraceEv.driverInit]) := by
  unfold get_driver
  split_ifs <;> simp

/-- Helper: once the empty-string guard is passed, the pipeline always
interacts with the browser session (its trace is never empty). -/
theorem validateCore_trace_ne (env : Env) (u : PyVal) :
    (validateCore env u).2 ≠ [] := by
  unfold validateCore
  rcases get_driver_cases env with hgd | hgd | hgd <;> rw [hgd] <;> dsimp only
  · split
    · simp
    · split
      · simp
      · split
        · simp
        · split <;> simp
  · split
    · simp
    · split
      · simp
      · split
        · simp
        · split <;> simp
  · simp

/-- Helper: for a non-empty-string argument the validator's trace is the
pipeline's trace. -/
theorem validate_trace (env : Env) (u : PyVal) (h : u ≠ PyVal.str "") :
    (validate_linkedin_profile env u).2 = (validateCore env u).2 := by
  unfold validate_linkedin_profile
  rw [if_neg h]
  rcases hvc : validateCore env u with ⟨res, tr⟩
  cases res <;> simp

/-- Claim C7 (amended): a profile URL equal to the empty string is
rejected immediately, with no driver interaction at all; but a non-string
URL (`NaN` or any other non-string value) is NOT short-circuited — the
pipeline runs and interacts with the browser session. -/
theorem claim_C7_amended (env : Env) :
    validate_linkedin_profile env (PyVal.str "") = (none, []) ∧
    (validate_linkedin_profile env PyVal.nan).2 ≠ [] ∧
    (validate_linkedin_profile env PyVal.other).2 ≠ [] := by
  refine ⟨by simp [validate_linkedin_profile], ?_, ?_⟩
  · rw [validate_trace env PyVal.nan (by decide)]
    exact validateCore_trace_ne env PyVal.nan
  · rw [validate_trace env PyVal.other (by decide)]
    exact validateCore_trace_ne env PyVal.other

/-- Baseline concrete environment used by the concrete instances below:
cached driver, no failures, empty page. -/
def envBase : Env :=
  { driverCached := true, driverInitOk := true, navFails := fun _ => false,
    cssProfile := fun _ => ElemRes.noSuchElement,
    connectionsRes := ElemRes.noSuchElement, scrollFails := false,
    anchorsFail := false, anchors := [], aboutDesc := fun _ => none,
    ollama := fun _ => OllamaRes.fail }

/-- Claim C7 counterexample: on the non-string argument `PyVal.other` the
validator does NOT return immediately — it navigates (`driver.get` is
called on the non-string value; here the navigation raises and the
top-level handler converts the error to `None`).  This refutes the claim
that for a non-string URL the validator returns none without attempting
any navigation. -/
theorem claim_C7_counterexample :
    validate_linkedin_profile { envBase with navFails := fun _ => true }
        PyVal.other = (none, [TraceEv.navGet PyVal.other]) := by
  rfl

/-- Claim C8 (amended): when the driver is not yet cached and its
initialization fails during the first navigation, `get_driver` re-raises,
but the exception is caught by `validate_linkedin_profile`'s top-level
handler and converted into a per-profile `None`; it does NOT propagate to
the invoker of the batch run. -/
theorem claim_C8_amended (env : Env) (u : PyVal)
    (h1 : env.driverCached = false) (h2 : env.driverInitOk = false)
    (h3 : u ≠ PyVal.str "") :
    validateCore env u = (Except.error (), [TraceEv.driverInit]) ∧
    validate_linkedin_profile env u = (none, [TraceEv.driverInit]) := by
  have hgd : get_driver env = (Except.error (), [TraceEv.driverInit]) := by
    unfold get_driver
    rw [h1, h2]
    simp
  have hvc : validateCore env u = (Except.error (), [TraceEv.driverInit]) := by
    unfold validateCore
    rw [hgd]
  refine ⟨hvc, ?_⟩
  unfold validate_linkedin_profile
  rw [if_neg h3, hvc]

theorem claim_C8_amended_witness :
    validate_linkedin_profile
        { envBase with driverCached := false, driverInitOk := false }
        (PyVal.str "http://x") = (none, [TraceEv.driverInit]) :=
  (claim_C8_amended { envBase with driverCached := false, driverInitOk := false }
    (PyVal.str "http://x") rfl rfl (by decide)).2

/-- Claim C8 counterexample: with an uncached driver whose initialization
fails, the pipeline raises internally (first conjunct) but the validator
returns a plain `None` (second conjunct) and a batch run over one row
completes normally with an empty output table (third conjunct) — the
error does not propagate out to whatever invoked the batch run, refuting
the claim. -/
theorem claim_C8_counterexample :
    validateCore { envBase with driverCached := false, driverInitOk := false }
        (PyVal.str "http://profile") =
      (Except.error (), [TraceEv.driverInit]) ∧
    validate_linkedin_profile
        { envBase with driverCached := false, driverInitOk := false }
        (PyVal.str "http://profile") = (none, [TraceEv.driverInit]) ∧
    process_profiles
      (fun url => Except.ok (validate_linkedin_profile
        { envBase with driverCached := false, driverInitOk := false }
        (PyVal.str url)).1)
      (fun l => l) [[("linkedinUrl", PyVal.str "http://profile")]] = [] := by
  exact ⟨rfl, rfl, by decide⟩

theorem setAdd_nodup {l : List String} (u : String) (h : l.Nodup) :
    (setAdd l u).Nodup := by
  unfold setAdd
  split_ifs with hm
  · exact h
  · rw [List.nodup_append]
    exact ⟨h, List.nodup_singleton u, by
      intro a ha hau
      simp at hau
      exact hm (hau ▸ ha)⟩

theorem setAdd_mem {l : List String} {u v : String} (h : u ∈ setAdd l v) :
    u ∈ l ∨ u = v := by
  unfold setAdd at h
  split_ifs at h with hm
  · exact Or.inl h
  · rcases List.mem_append.mp h with h | h
    · exact Or.inl h
    · simp at h
      exact Or.inr h

theorem collectLinks_nodup (l : List AnchorBeh) (acc : List String)
    (h : acc.Nodup) : (collectLinks l acc).Nodup := by
  induction l generalizing acc with
  | nil => exact h
  | cons a rest ih =>
      cases a with
      | raises => exact h
      | href o =>
          cases o with
          | none => exact ih acc h
          | some s =>
              by_cases hc : containsSub "/company/" s = true
              · simpa [collectLinks, hc] using ih _ (setAdd_nodup _ h)
              · simpa [collectLinks, hc] using ih _ h

theorem collectLinks_mem {l : List AnchorBeh} {acc : List String} {u : String}
    (h : u ∈ collectLinks l acc) :
    u ∈ acc ∨ ∃ s, AnchorBeh.href (some s) ∈ l ∧
      containsSub "/company/" s = true ∧ u = stripQuery s := by
  induction l generalizing acc with
  | nil => exact Or.inl h
  | cons a rest ih =>
      cases a with
      | raises => exact Or.inl h
      | href o =>
          cases o with
          | none =>
              rcases ih h with h' | ⟨s, hs, hc, he⟩
              · exact Or.inl h'
              · exact Or.inr ⟨s, List.mem_cons_of_mem _ hs, hc, he⟩
          | some s =>
              by_cases hc : containsSub "/company/" s = true
              · rw [show collectLinks (AnchorBeh.href (some s) :: rest) acc =
                    collectLinks rest (setAdd acc (stripQuery s)) by
                  simp [collectLinks, hc]] at h
                rcases ih h with h' | ⟨s', hs', hc', he'⟩
                · rcases setAdd_mem h' with h'' | h''
                  · exact Or.inl h''
                  · exact Or.inr ⟨s, List.mem_cons_self _ _, hc, h''⟩
                · exact Or.inr ⟨s', List.mem_cons_of_mem _ hs', hc', he'⟩
              · rw [show collectLinks (AnchorBeh.href (some s) :: rest) acc =
                    collectLinks rest acc by simp [collectLinks, hc]] at h
                rcases ih h with h' | ⟨s', hs', hc', he'⟩
                · exact Or.inl h'
                · exact Or.inr ⟨s', List.mem_cons_of_mem _ hs', hc', he'⟩

theorem stripQuery_no_q (s : String) : ¬ '?' ∈ (stripQuery s).data := by
  intro h
  have h' := List.mem_takeWhile_imp (p := fun c => decide (c ≠ '?')) h
  simp at h'

theorem collectLinks_raises (l extra : List AnchorBeh) (acc : List String) :
    collectLinks (l ++ AnchorBeh.raises :: extra) acc = collectLinks l acc := by
  induction l generalizing acc with
  | nil => rfl
  | cons a rest ih =>
      cases a with
      | raises => rfl
      | href o =>
          cases o with
          | none => simpa [collectLinks] using ih acc
          | some s =>
              by_cases hc : containsSub "/company/" s = true <;>
                simp [collectLinks, hc, ih]

/-- Claim C9 (amended): the harvested collection always consists of
pairwise-distinct URLs, each free of any query string and obtained by
stripping the query part of the `href` of some experience anchor whose
raw value contains "/company/"; every failure is absorbed (the embedding
is total), and on a failure the links collected BEFORE it are returned —
anchors after the first raising anchor never contribute, so a failure
before any collection yields the empty collection, but a mid-loop failure
returns the partial (possibly non-empty) set, not always the empty set. -/
theorem claim_C9_amended (env : Env) :
    (extract_company_links env).Nodup ∧
    (∀ u ∈ extract_company_links env, ¬ '?' ∈ u.data ∧
      ∃ s, AnchorBeh.href (some s) ∈ env.anchors ∧
        containsSub "/company/" s = true ∧ u = stripQuery s) ∧
    (∀ extra, extract_company_links
        { env with anchors := env.anchors ++ AnchorBeh.raises :: extra } =
      extract_company_links env) := by
  refine ⟨?_, ?_, ?_⟩
  · unfold extract_company_links
    split_ifs
    · exact List.nodup_nil
    · exact List.nodup_nil
    · exact collectLinks_nodup _ _ List.nodup_nil
  · intro u hu
    unfold extract_company_links at hu
    split_ifs at hu
    · simp at hu
    · simp at hu
    · rcases collectLinks_mem hu with h | ⟨s, hs, hc, he⟩
      · simp at h
      · exact ⟨he ▸ stripQuery_no_q s, s, hs, hc, he⟩
  · intro extra
    cases hs : env.scrollFails <;> cases ha : env.anchorsFail <;>
      simp [extract_company_links, hs, ha, collectLinks_raises]

theorem claim_C9_amended_witness :
    (extract_company_links { envBase with
      anchors := [AnchorBeh.href (some "https://a/company/x?q=1")] }).Nodup ∧
    ¬ '?' ∈ ("https://a/company/x").data ∧
    extract_company_links { envBase with
        anchors := [AnchorBeh.href (some "https://a/company/x?q=1")] ++
          AnchorBeh.raises :: [] } =
      extract_company_links { envBase with
        anchors := [AnchorBeh.href (some "https://a/company/x?q=1")] } := by
  have h := claim_C9_amended { envBase with
    anchors := [AnchorBeh.href (some "https://a/company/x?q=1")] }
  have hm : "https://a/company/x" ∈ extract_company_links { envBase with
      anchors := [AnchorBeh.href (some "https://a/company/x?q=1")] } := by
    decide
  exact ⟨h.1, (h.2.1 _ hm).1, h.2.2 []⟩

/-- Claim C9 counterexample: with one good anchor followed by an anchor
whose attribute access raises, an extraction failure occurs, yet the
harvester returns the one link collected before the failure — not the
empty set — refuting the claim that any extraction failure yields the
empty set. -/
theorem claim_C9_counterexample :
    AnchorBeh.raises ∈ ({ envBase with
      anchors := [AnchorBeh.href (some "https://a/company/x?q=1"),
        AnchorBeh.raises] } : Env).anchors ∧
    extract_company_links { envBase with
        anchors := [AnchorBeh.href (some "https://a/company/x?q=1"),
          AnchorBeh.raises] } = ["https://a/company/x"] := by
  exact ⟨by decide, by decide⟩

/-- Stub validator for the concrete sort-stability counterexample: every
URL validates to the same accepted result with job title "T". -/
def c5Stub : Validator := fun _ =>
  Except.ok (some { has_photo := true, job_title := "T", connections := "",
                    companies := [{ company_url := "https://x/company/c",
                                    about := "a" }] })

/-- Seventeen input rows with distinct URLs; 17 is the smallest size at
which numpy's quicksort exceeds its stable insertion-sort regime
(`SMALL_QUICKSORT = 15` closed segment bounds). -/
def c5Df : List Row :=
  (List.range 17).map
    (fun i => [("linkedinUrl", PyVal.str ("http://u" ++ toString i))])

/-- Claim C5 counterexample: seventeen produced rows all share the title
"T" (so every pair is a tie), yet the written table, produced by the
concrete pandas default sort (numpy quicksort argsort), does not keep the
rows in their produced order: the row of `http://u14` is written at
position 1 and the row of `http://u1` at position 14 — the relative order
of those two tied rows is inverted, refuting the claimed stability. -/
theorem claim_C5_counterexample :
    (∀ r ∈ process_profiles c5Stub pandas_sort_values_by_title c5Df,
      titleKey r = "T") ∧
    lookupVal
        ((process_profiles c5Stub pandas_sort_values_by_title c5Df).getD 1 [])
        "linkedinUrl" = some (PyVal.str "http://u14") ∧
    lookupVal
        ((process_profiles c5Stub pandas_sort_values_by_title c5Df).getD 14 [])
        "linkedinUrl" = some (PyVal.str "http://u1") ∧
    (process_profiles c5Stub pandas_sort_values_by_title c5Df).map
        (fun r => lookupVal r "linkedinUrl") ≠
      (c5Df.filterMap (processRow c5Stub)).map
        (fun r => lookupVal r "linkedinUrl") := by
  exact ⟨by decide, by decide, by decide, by decide⟩

theorem claim_C3_witness :
    (process_profiles (fun _ => Except.ok none) (fun l => l)
      [[("linkedinUrl", PyVal.str "http://a")]]).length ≤
      ([[("linkedinUrl", PyVal.str "http://a")]] : List Row).length :=
  (claim_C3 (fun _ => Except.ok none) (fun l => l)
    [[("linkedinUrl", PyVal.str "http://a")]] (List.Perm.refl _)).1

theorem claim_C4_witness :
    process_profiles (fun _ => Except.ok none) (fun l => l)
        ([] ++ [("note", PyVal.other)] :: []) =
      process_profiles (fun _ => Except.ok none) (fun l => l) ([] ++ []) :=
  claim_C4 (fun _ => Except.ok none) (fun l => l) [] []
    [("note", PyVal.other)] (Or.inl rfl)

/-- Stub validator for the C5 witness: the produced job title is the URL
itself, so two rows yield distinct titles. -/
def c5wStub : Validator := fun url =>
  Except.ok (some { has_photo := true, job_title := url, connections := "",
                    companies := [{ company_url := "https://x/company/c",
                                    about := "a" }] })

theorem claim_C5_amended_witness :
    List.Pairwise (fun a b => strLe (titleKey a) (titleKey b) = true)
      (process_profiles c5wStub (fun l => l.reverse)
        [[("linkedinUrl", PyVal.str "http://b")],
         [("linkedinUrl", PyVal.str "http://a")]]) :=
  (claim_C5_amended c5wStub (fun l => l.reverse)
    [[("linkedinUrl", PyVal.str "http://b")],
     [("linkedinUrl", PyVal.str "http://a")]]
    (List.reverse_perm _) (by decide)).1

/-- Fixed accepted result used by the C6 witness. -/
def c6Res : ProfileResult :=
  { has_photo := true, job_title := "Engineer", connections := "500+",
    companies := [{ company_url := "https://a/company/x", about := "bikes" }] }

theorem claim_C6_witness :
    processRow (fun _ => Except.ok (some c6Res))
        [("linkedinUrl", PyVal.str "http://p"), ("name", PyVal.str "N")] =
      some (buildOutputRow
        [("linkedinUrl", PyVal.str "http://p"), ("name", PyVal.str "N")]
        c6Res { company_url := "https://a/company/x", about := "bikes" }) ∧
    lookupVal (buildOutputRow
        [("linkedinUrl", PyVal.str "http://p"), ("name", PyVal.str "N")]
        c6Res { company_url := "https://a/company/x", about := "bikes" })
      "lead_status" = some (PyVal.str "valid") := by
  have h := claim_C6 (fun _ => Except.ok (some c6Res))
    [("linkedinUrl", PyVal.str "http://p"), ("name", PyVal.str "N")]
    "http://p" c6Res { company_url := "https://a/company/x", about := "bikes" }
    [] rfl rfl rfl
  exact ⟨h.1, h.2.1.mpr ⟨rfl, by decide⟩⟩

/-- Concrete environment for the C1 witness: one harvested company whose
about page is present and classified relevant. -/
def envC1 : Env :=
  { envBase with anchors := [AnchorBeh.href (some "https://a/company/x")],
                 aboutDesc := fun _ => some "sports gear",
                 ollama := fun _ => OllamaRes.ok (some "YES") }

theorem claim_C1_witness :
    (validate_linkedin_profile envC1 (PyVal.str "http://p")).1 = some
      { has_photo := false, job_title := "", connections := "",
        companies := [{ company_url := "https://a/company/x",
                        about := "sports gear" }] } := by
  have h := claim_C1 envC1 (PyVal.str "http://p") false ""
    [{ company_url := "https://a/company/x", about := "sports gear" }]
    [TraceEv.navGet (PyVal.str "https://a/company/x/about")]
    (by decide) rfl rfl rfl rfl rfl
  exact h.2 (by decide)

end LeadFiltration
